import Mathlib

/-!
Verification of the Liveness & Challenge-Solving subsystem of plumise-mcp.

Shallow embedding of:
  * `src/tools/node.ts` — `solveChallenge`, `hasLeadingZeroBits`, and the
    `solve_challenge` tool workflow (fetch → expiry check → solve → submit);
  * `src/services/heartbeat.ts` — `HeartbeatService` (constructor, `start`,
    `stop`, `sendHeartbeat`).

The hash function (`ethers.keccak256 ∘ ethers.toUtf8Bytes`) and the two
external collaborators (RPC client / network gateway and wallet / signer)
are outside the repository; they are abstracted as parameters: the hash as
an arbitrary `String → String`, and the outcome of one signed network
round-trip as an explicit `TickOutcome` / result value.
-/

namespace Plumise

/-! ### Hex rendering of nonces: `nonce.toString(16).padStart(8, "0")`

JavaScript's `Number.prototype.toString(16)` renders a non-negative integer
in lowercase hexadecimal with no leading zeros; `Nat.toDigits 16` is the
same function (its `Nat.digitChar` emits `'0'..'9','a'..'f'`).
`padStart(8, "0")` left-pads with `'0'` up to length 8 (a no-op on longer
strings), i.e. prepends `8 - length` zeros (truncated subtraction). -/

def toHex8 (n : Nat) : String :=
  let ds := Nat.toDigits 16 n
  ⟨List.replicate (8 - ds.length) '0' ++ ds⟩

/-! ### `hasLeadingZeroBits` (src/tools/node.ts, lines 286–305) -/

/-- `hash.startsWith("0x") ? hash.slice(2) : hash`, as a character list. -/
def stripHex (hash : String) : List Char :=
  match hash.toList with
  | '0' :: 'x' :: rest => rest
  | l => l

/-- The loop `for (i = 0; i < fullNibbles; i++) if (hex[i] !== "0") return false`.
In JavaScript, indexing past the end yields `undefined`, which is `!== "0"`,
so a string shorter than `fullNibbles` fails. -/
def checkFullNibbles : List Char → Nat → Bool
  | _, 0 => true
  | [], _ + 1 => false
  | c :: cs, k + 1 => c == '0' && checkFullNibbles cs k

/-- `parseInt(c, 16)` followed by JavaScript's bitwise-`&` coercion: a hex
digit (either case) maps to its value; any other character gives `NaN`,
which `ToInt32` coerces to `0` before the `&`.  ASCII codes: `'0'..'9'` are
48–57, `'a'..'f'` are 97–102, `'A'..'F'` are 65–70. -/
def hexCharValue (c : Char) : Nat :=
  if 48 ≤ c.toNat ∧ c.toNat ≤ 57 then c.toNat - 48
  else if 97 ≤ c.toNat ∧ c.toNat ≤ 102 then c.toNat - 87
  else if 65 ≤ c.toNat ∧ c.toNat ≤ 70 then c.toNat - 55
  else 0

/-- `hasLeadingZeroBits(hash, bits)` from src/tools/node.ts: strip the `0x`
prefix, require the first `bits / 4` hex characters to be `'0'`, and when
`bits % 4 > 0` **and** a character at index `bits / 4` exists, require the
top `bits % 4` bits of that nibble to be zero (`(value & (0xF << (4 - r))) === 0`).
When no such character exists the remainder check is skipped and the
candidate passes. -/
def hasLeadingZeroBits (hash : String) (bits : Nat) : Bool :=
  if checkFullNibbles (stripHex hash) (bits / 4) then
    if 0 < bits % 4 ∧ bits / 4 < (stripHex hash).length then
      (hexCharValue ((stripHex hash).getD (bits / 4) '0') &&& (15 <<< (4 - bits % 4))) == 0
    else true
  else false

/-- The difficulty check as worded by the specification: identical to
`hasLeadingZeroBits` except that when `remainder > 0` and no next hex
character exists, the candidate **fails** instead of passing.  Kept separate
so the two can be compared. -/
def specHasLeadingZeroBits (hash : String) (bits : Nat) : Bool :=
  if checkFullNibbles (stripHex hash) (bits / 4) then
    if 0 < bits % 4 then
      if bits / 4 < (stripHex hash).length then
        (hexCharValue ((stripHex hash).getD (bits / 4) '0') &&& (15 <<< (4 - bits % 4))) == 0
      else false
    else true
  else false

/-! ### `solveChallenge` (src/tools/node.ts, lines 264–281) -/

def MAX_ITERATIONS : Nat := 1000000

/-- One candidate test of the loop body: hash `data + nonce.toString(16).padStart(8,"0")`
with the (abstracted) hash function `H` and test the difficulty. -/
def nonceOk (H : String → String) (data : String) (difficulty : Nat) (nonce : Nat) : Bool :=
  hasLeadingZeroBits (H (data ++ toHex8 nonce)) difficulty

/-- The `for (let nonce = 0; nonce < MAX_ITERATIONS; nonce++)` loop, with the
remaining iteration budget made explicit as structural fuel. -/
def solveAux (H : String → String) (data : String) (difficulty : Nat) :
    Nat → Nat → Option String
  | 0, _ => none
  | fuel + 1, nonce =>
    if nonceOk H data difficulty nonce then some (toHex8 nonce)
    else solveAux H data difficulty fuel (nonce + 1)

/-- `solveChallenge(data, difficulty)`, parameterized by the hash function `H`
(in the source, `ethers.keccak256(ethers.toUtf8Bytes(·))`). -/
def solveChallenge (H : String → String) (data : String) (difficulty : Nat) : Option String :=
  solveAux H data difficulty MAX_ITERATIONS 0

/-! ### `HeartbeatService` (src/services/heartbeat.ts)

The RPC client and the wallet account held by the service are external
collaborators; what the service itself owns is the interval and the four
mutable fields (`_isRunning`, `_lastHeartbeat`, `_heartbeatCount`,
`_lastError`) plus the `timer` handle, modelled here as `timerArmed`.
`_lastHeartbeat` is a `Date`, modelled as the tick's wall-clock time.
One signed network round-trip (build message, sign, send) either succeeds
at some time `now` or fails with an error message; that outcome is the
`TickOutcome` argument of a tick. -/

structure HeartbeatService where
  intervalMs : Int
  timerArmed : Bool
  isRunning : Bool
  lastHeartbeat : Option Nat
  heartbeatCount : Nat
  lastError : Option String
deriving Repr, DecidableEq

/-- Outcome of the signer + network round-trip inside one tick. -/
inductive TickOutcome where
  | success (now : Nat)
  | failure (msg : String)
deriving Repr, DecidableEq

/-- The constructor (src/services/heartbeat.ts, lines 21–25).  Its body only
stores its arguments — it performs no validation and cannot throw — so under
an `Option` failure channel (`none` = construction rejected) it is always
`some`. -/
def HeartbeatService.create (intervalMs : Int) : Option HeartbeatService :=
  some { intervalMs := intervalMs, timerArmed := false, isRunning := false,
         lastHeartbeat := none, heartbeatCount := 0, lastError := none }

/-- `sendHeartbeat` (lines 78–95): the whole body is wrapped in
`try/catch`, so the tick is total.  On success it sets `_lastHeartbeat` to
the current time, increments `_heartbeatCount` and clears `_lastError`; on
any failure (signing or network) the `catch` arm only sets `_lastError`. -/
def HeartbeatService.sendHeartbeat (s : HeartbeatService) (o : TickOutcome) :
    HeartbeatService :=
  match o with
  | .success now =>
    { s with lastHeartbeat := some now, heartbeatCount := s.heartbeatCount + 1,
             lastError := none }
  | .failure msg => { s with lastError := some msg }

/-- `start` (lines 47–62): early-return when already running; otherwise set
`_isRunning := true`, clear `_lastError`, send one immediate heartbeat, then
arm the interval timer.  The returned `Nat` counts the immediate heartbeat
attempts performed by this call (0 or 1). -/
def HeartbeatService.start (s : HeartbeatService) (o : TickOutcome) :
    HeartbeatService × Nat :=
  if s.isRunning then (s, 0)
  else
    let s1 := { s with isRunning := true, lastError := none }
    let s2 := s1.sendHeartbeat o
    ({ s2 with timerArmed := true }, 1)

/-- `stop` (lines 67–73): clear the timer if armed and set `_isRunning := false`;
no other field is touched. -/
def HeartbeatService.stop (s : HeartbeatService) : HeartbeatService :=
  { s with timerArmed := false, isRunning := false }

/-! ### The `solve_challenge` tool workflow (src/tools/node.ts, lines 155–259) -/

structure Challenge where
  id : String
  difficulty : Nat
  data : String
  expiresAt : Nat
deriving Repr, DecidableEq

structure SubmissionResult where
  accepted : Bool
  reward : String
  message : String
deriving Repr, DecidableEq

/-- Terminal outcome reported by the tool. -/
inductive SolveOutcome where
  | noChallenge
  | expired
  | failed
  | accepted
  | rejected
deriving Repr, DecidableEq

/-- The orchestration of one `solve_challenge` call: the fetched challenge
(`none` models a null/missing response), the current time in unix seconds
(`Math.floor(Date.now() / 1000)`), the solver and the signed-submit step as
test doubles.  Besides the terminal outcome it returns whether the solver
was invoked and whether a submission was made, mirroring call-count
assertions on the doubles.  `!challenge || !challenge.id` is falsy-id
filtering: for a `string` field, falsy means the empty string. -/
def solveChallengeTool (challenge : Option Challenge) (now : Nat)
    (solver : String → Nat → Option String)
    (submit : String → String → SubmissionResult) :
    SolveOutcome × Bool × Bool :=
  match challenge with
  | none => (.noChallenge, false, false)
  | some ch =>
    if ch.id = "" then (.noChallenge, false, false)
    else if 0 < ch.expiresAt ∧ ch.expiresAt ≤ now then (.expired, false, false)
    else
      match solver ch.data ch.difficulty with
      | none => (.failed, true, false)
      | some nonce =>
        let r := submit ch.id nonce
        (if r.accepted then .accepted else .rejected, true, true)

/-- A freshly constructed, not-yet-started service (concrete test fixture). -/
def sampleService : HeartbeatService :=
  { intervalMs := 1000, timerArmed := false, isRunning := false,
    lastHeartbeat := none, heartbeatCount := 3, lastError := none }

/-- A service that is already running (concrete test fixture). -/
def sampleRunning : HeartbeatService :=
  { intervalMs := 1000, timerArmed := true, isRunning := true,
    lastHeartbeat := some 9, heartbeatCount := 5, lastError := none }

/-- Lowercase hexadecimal digit: `'0'..'9'` (ASCII 48–57) or `'a'..'f'`
(ASCII 97–102).  This is the alphabet `Number.prototype.toString(16)`
draws from. -/
def isLowerHexChar (c : Char) : Bool :=
  (48 ≤ c.toNat && c.toNat ≤ 57) || (97 ≤ c.toNat && c.toNat ≤ 102)

/-! ### Helper lemmas about the difficulty check -/

theorem checkFullNibbles_iff (l : List Char) (n : Nat) :
    checkFullNibbles l n = true ↔ n ≤ l.length ∧ ∀ i, i < n → l.getD i '0' = '0' := by
  induction l generalizing n with
  | nil =>
    cases n with
    | zero => simp [checkFullNibbles]
    | succ k => simp [checkFullNibbles]
  | cons c cs ih =>
    cases n with
    | zero => simp [checkFullNibbles]
    | succ k =>
      simp only [checkFullNibbles, Bool.and_eq_true, beq_iff_eq, ih, List.length_cons]
      constructor
      · rintro ⟨hc, hlen, hall⟩
        refine ⟨by omega, ?_⟩
        intro i hi
        cases i with
        | zero => simpa using hc
        | succ j => simpa using hall j (by omega)
      · rintro ⟨hlen, hall⟩
        refine ⟨by simpa using hall 0 (by omega), by omega, ?_⟩
        intro j hj
        simpa using hall (j + 1) (by omega)

theorem checkFullNibbles_mono {l : List Char} {n n' : Nat} (h : n ≤ n')
    (h' : checkFullNibbles l n' = true) : checkFullNibbles l n = true := by
  rw [checkFullNibbles_iff] at h' ⊢
  exact ⟨by omega, fun i hi => h'.2 i (by omega)⟩

theorem hexCharValue_lt (c : Char) : hexCharValue c < 16 := by
  unfold hexCharValue
  split <;> try split <;> try split
  all_goals omega

/-- Clearing the top `r'` bits of a nibble also clears the top `r` bits for
any `r ≤ r'`: a finite check over all nibble values and bit counts. -/
theorem nibble_mask_mono :
    ∀ v : Fin 16, ∀ r r' : Fin 4, r ≤ r' →
      v.val &&& (15 <<< (4 - r'.val)) = 0 → v.val &&& (15 <<< (4 - r.val)) = 0 := by
  decide

theorem hexCharValue_zero : hexCharValue '0' = 0 := by decide

/-- Difficulty 0 is satisfied by every hash string. -/
theorem hasLeadingZeroBits_zero (h : String) : hasLeadingZeroBits h 0 = true := by
  unfold hasLeadingZeroBits
  simp [checkFullNibbles]

/-! ### Helper lemmas about the search loop -/

theorem solveAux_some_iff (H : String → String) (data : String) (diff : Nat) :
    ∀ (fuel start : Nat) (s : String),
      solveAux H data diff fuel start = some s ↔
        ∃ k, k < fuel ∧ nonceOk H data diff (start + k) = true ∧
          (∀ j, j < k → nonceOk H data diff (start + j) = false) ∧
          s = toHex8 (start + k) := by
  intro fuel
  induction fuel with
  | zero => intro start s; simp [solveAux]
  | succ fuel ih =>
    intro start s
    cases h0 : nonceOk H data diff start with
    | true =>
      have hstep : solveAux H data diff (fuel + 1) start = some (toHex8 start) := by
        simp [solveAux, h0]
      rw [hstep]
      constructor
      · intro hs
        refine ⟨0, by omega, by simpa using h0, by intro j hj; omega, ?_⟩
        rw [Nat.add_zero]
        exact (Option.some_inj.mp hs).symm
      · rintro ⟨k, hk, hok, hmin, rfl⟩
        have hk0 : k = 0 := by
          by_contra hne
          have hj := hmin 0 (by omega)
          rw [Nat.add_zero, h0] at hj
          cases hj
        subst hk0
        rw [Nat.add_zero]
    | false =>
      have hstep : solveAux H data diff (fuel + 1) start =
          solveAux H data diff fuel (start + 1) := by
        simp [solveAux, h0]
      rw [hstep, ih (start + 1) s]
      constructor
      · rintro ⟨k, hk, hok, hmin, rfl⟩
        refine ⟨k + 1, by omega, ?_, ?_, ?_⟩
        · have e : start + (k + 1) = start + 1 + k := by omega
          rw [e]; exact hok
        · intro j hj
          cases j with
          | zero => rw [Nat.add_zero]; exact h0
          | succ j' =>
            have e : start + (j' + 1) = start + 1 + j' := by omega
            rw [e]; exact hmin j' (by omega)
        · congr 1; omega
      · rintro ⟨k, hk, hok, hmin, rfl⟩
        cases k with
        | zero =>
          rw [Nat.add_zero, h0] at hok
          cases hok
        | succ k' =>
          refine ⟨k', by omega, ?_, ?_, ?_⟩
          · have e : start + 1 + k' = start + (k' + 1) := by omega
            rw [e]; exact hok
          · intro j hj
            have e : start + 1 + j = start + (j + 1) := by omega
            rw [e]; exact hmin (j + 1) (by omega)
          · congr 1; omega

theorem solveAux_none_iff (H : String → String) (data : String) (diff : Nat) :
    ∀ (fuel start : Nat),
      solveAux H data diff fuel start = none ↔
        ∀ k, k < fuel → nonceOk H data diff (start + k) = false := by
  intro fuel
  induction fuel with
  | zero => intro start; simp [solveAux]
  | succ fuel ih =>
    intro start
    cases h0 : nonceOk H data diff start with
    | true =>
      have hstep : solveAux H data diff (fuel + 1) start = some (toHex8 start) := by
        simp [solveAux, h0]
      rw [hstep]
      simp only [reduceCtorEq, false_iff, not_forall]
      exact ⟨0, by omega, by rw [Nat.add_zero, h0]; simp⟩
    | false =>
      have hstep : solveAux H data diff (fuel + 1) start =
          solveAux H data diff fuel (start + 1) := by
        simp [solveAux, h0]
      rw [hstep, ih (start + 1)]
      constructor
      · intro hall j hj
        cases j with
        | zero => rw [Nat.add_zero]; exact h0
        | succ j' =>
          have e : start + (j' + 1) = start + 1 + j' := by omega
          rw [e]; exact hall j' (by omega)
      · intro hall k hk
        have e : start + 1 + k = start + (k + 1) := by omega
        rw [e]; exact hall (k + 1) (by omega)

/-! ### Helper lemmas about the hex rendering of nonces -/

theorem toDigitsCore_length :
    ∀ (fuel k n : Nat) (ds : List Char), 0 < k → n < 16 ^ k →
      (Nat.toDigitsCore 16 fuel n ds).length ≤ k + ds.length := by
  intro fuel
  induction fuel with
  | zero =>
    intro k n ds hk _
    simp only [Nat.toDigitsCore]
    omega
  | succ fuel ih =>
    intro k n ds hk hn
    simp only [Nat.toDigitsCore]
    split
    · simp only [List.length_cons]
      omega
    · rename_i hdiv
      have h16 : 16 ≤ n := by
        by_contra hlt
        exact hdiv ((Nat.div_eq_zero_iff (by omega)).mpr (by omega))
      have hk2 : 2 ≤ k := by
        by_contra hk1
        have hkeq : k = 1 := by omega
        subst hkeq
        simp at hn
        omega
      have hrec := ih (k - 1) (n / 16) (Nat.digitChar (n % 16) :: ds) (by omega) ?_
      · simp only [List.length_cons] at hrec
        omega
      · rw [Nat.div_lt_iff_lt_mul (by omega)]
        have : (16 : Nat) ^ (k - 1) * 16 = 16 ^ k := by
          rw [← pow_succ]
          congr 1
          omega
        omega

theorem digitChar_isLowerHex (m : Nat) (hm : m < 16) :
    isLowerHexChar (Nat.digitChar m) = true := by
  have h : ∀ v : Fin 16, isLowerHexChar (Nat.digitChar v.val) = true := by decide
  exact h ⟨m, hm⟩

theorem toDigitsCore_mem :
    ∀ (fuel n : Nat) (ds : List Char), (∀ c ∈ ds, isLowerHexChar c = true) →
      ∀ c ∈ Nat.toDigitsCore 16 fuel n ds, isLowerHexChar c = true := by
  intro fuel
  induction fuel with
  | zero =>
    intro n ds hds
    simpa only [Nat.toDigitsCore] using hds
  | succ fuel ih =>
    intro n ds hds c hc
    simp only [Nat.toDigitsCore] at hc
    have hcons : ∀ x ∈ Nat.digitChar (n % 16) :: ds, isLowerHexChar x = true := by
      intro x hx
      rcases List.mem_cons.mp hx with hx | hx
      · subst hx
        exact digitChar_isLowerHex _ (Nat.mod_lt _ (by omega))
      · exact hds x hx
    split at hc
    · exact hcons c hc
    · exact ih (n / 16) _ hcons c hc

theorem toDigits_length_le (n : Nat) (hn : n < 16 ^ 8) :
    (Nat.toDigits 16 n).length ≤ 8 := by
  have := toDigitsCore_length (n + 1) 8 n [] (by omega) hn
  simpa [Nat.toDigits] using this

theorem toHex8_length (n : Nat) (hn : n < 16 ^ 8) : (toHex8 n).length = 8 := by
  have h1 := toDigits_length_le n hn
  simp only [toHex8, String.length]
  simp only [List.length_append, List.length_replicate]
  omega

theorem toHex8_chars (n : Nat) : ∀ c ∈ (toHex8 n).data, isLowerHexChar c = true := by
  intro c hc
  simp only [toHex8] at hc
  rcases List.mem_append.mp hc with hc | hc
  · rw [List.eq_of_mem_replicate hc]
    decide
  · exact toDigitsCore_mem (n + 1) n [] (by simp) c hc

/-! ### Claim theorems -/

/-- C1: the spec's difficulty check demands that when `remainder > 0` and no
next hex character exists the candidate fails, but `hasLeadingZeroBits`
skips the remainder check in that case and accepts.  At hash `"0x0"` with
`bits = 5` (one full nibble `'0'`, remainder 1, no character at index 1)
the spec check rejects while the code accepts — the code also contradicts
its own doc comment, since `"0"` has only 4 leading zero bits. -/
theorem c1_missing_next_nibble_divergence :
    specHasLeadingZeroBits "0x0" 5 = false ∧ hasLeadingZeroBits "0x0" 5 = true := by
  exact ⟨by decide, by decide⟩

/-- C2: the solver tries nonces `0, 1, 2, …` (zero-padded 8-digit hex) and
succeeds exactly when some nonce below the iteration budget passes the
difficulty check and every smaller nonce fails it, returning that lowest
nonce.  Determinism under identical `(data, difficulty)` is immediate: the
embedding is a pure function of its inputs. -/
theorem c2_solver_returns_first_satisfying_nonce
    (H : String → String) (data : String) (difficulty : Nat) (s : String) :
    solveChallenge H data difficulty = some s ↔
      ∃ n, n < MAX_ITERATIONS ∧ nonceOk H data difficulty n = true ∧
        (∀ m, m < n → nonceOk H data difficulty m = false) ∧ s = toHex8 n := by
  unfold solveChallenge
  rw [solveAux_some_iff]
  simp only [Nat.zero_add]

theorem c2_witness :
    solveChallenge (fun _ => "") "" 0 = some "00000000" :=
  (c2_solver_returns_first_satisfying_nonce (fun _ => "") "" 0 "00000000").mpr
    ⟨0, by decide, rfl, fun m hm => absurd hm (by omega), rfl⟩

/-- C3: every successful result of the solver is a string of exactly 8
lowercase hex digits rendering a nonce below `MAX_ITERATIONS`, and the
solver reports exhaustion (`none`) exactly when all 1,000,000 candidate
nonces `0 … 999999` fail the check — the fuel of the embedded loop bounds
the candidate evaluations at 1,000,000. -/
theorem c3_solver_output_shape_and_budget
    (H : String → String) (data : String) (difficulty : Nat) :
    (∀ s, solveChallenge H data difficulty = some s →
      s.length = 8 ∧ (∀ c ∈ s.data, isLowerHexChar c = true) ∧
        ∃ n, n < MAX_ITERATIONS ∧ s = toHex8 n) ∧
    (solveChallenge H data difficulty = none ↔
      ∀ n, n < MAX_ITERATIONS → nonceOk H data difficulty n = false) := by
  constructor
  · intro s hs
    unfold solveChallenge at hs
    rw [solveAux_some_iff] at hs
    obtain ⟨k, hk, hok, hmin, rfl⟩ := hs
    have hmax : MAX_ITERATIONS < 16 ^ 8 := by norm_num [MAX_ITERATIONS]
    have hk16 : 0 + k < 16 ^ 8 := by omega
    exact ⟨toHex8_length _ hk16, toHex8_chars _, ⟨0 + k, by simpa using hk, rfl⟩⟩
  · unfold solveChallenge
    rw [solveAux_none_iff]
    simp only [Nat.zero_add]

theorem c3_witness :
    ("00000000" : String).length = 8 ∧
      (∀ c ∈ ("00000000" : String).data, isLowerHexChar c = true) ∧
      ∃ n, n < MAX_ITERATIONS ∧ ("00000000" : String) = toHex8 n :=
  (c3_solver_output_shape_and_budget (fun _ => "") "" 0).1 "00000000" rfl

/-- C4: at difficulty 0 the very first candidate (nonce 0) always passes the
check, whatever the hash function returns, so the solver returns
`"00000000"` for every data string. -/
theorem c4_difficulty_zero_returns_first_nonce (H : String → String) (data : String) :
    solveChallenge H data 0 = some "00000000" := by
  unfold solveChallenge
  rw [solveAux_some_iff]
  exact ⟨0, by decide, hasLeadingZeroBits_zero (H (data ++ toHex8 0)),
    fun j hj => absurd hj (by omega), rfl⟩

/-- C9: the difficulty check is monotone in the bit count: a hash accepted
at difficulty `b'` is accepted at every difficulty `b ≤ b'`. -/
theorem c9_difficulty_check_monotone (h : String) (b b' : Nat) (hb : b ≤ b')
    (hacc : hasLeadingZeroBits h b' = true) : hasLeadingZeroBits h b = true := by
  unfold hasLeadingZeroBits at hacc ⊢
  by_cases H1 : checkFullNibbles (stripHex h) (b' / 4) = true
  · have H2 : checkFullNibbles (stripHex h) (b / 4) = true :=
      checkFullNibbles_mono (Nat.div_le_div_right hb) H1
    rw [if_pos H2]
    rw [if_pos H1] at hacc
    by_cases hcond : 0 < b % 4 ∧ b / 4 < (stripHex h).length
    · rw [if_pos hcond]
      obtain ⟨hr, hlen⟩ := hcond
      rcases Nat.lt_or_ge (b / 4) (b' / 4) with hqlt | hqge
      · have hz : (stripHex h).getD (b / 4) '0' = '0' :=
          ((checkFullNibbles_iff _ _).1 H1).2 _ hqlt
        rw [hz, hexCharValue_zero]
        simp [Nat.zero_and]
      · have hqeq : b / 4 = b' / 4 := Nat.le_antisymm (Nat.div_le_div_right hb) hqge
        have hrle : b % 4 ≤ b' % 4 := by omega
        have hlen' : b' / 4 < (stripHex h).length := by omega
        rw [if_pos ⟨by omega, hlen'⟩] at hacc
        have hv := hexCharValue_lt ((stripHex h).getD (b' / 4) '0')
        have hmono := nibble_mask_mono
          ⟨hexCharValue ((stripHex h).getD (b' / 4) '0'), hv⟩
          ⟨b % 4, by omega⟩ ⟨b' % 4, by omega⟩
          hrle (by simpa using hacc)
        rw [hqeq]
        simpa using hmono
    · rw [if_neg hcond]
  · rw [if_neg H1] at hacc
    exact absurd hacc (by simp)

theorem c9_witness :
    4 ≤ 8 ∧ hasLeadingZeroBits "0x00ab" 4 = true :=
  ⟨by omega, c9_difficulty_check_monotone "0x00ab" 4 8 (by omega) (by decide)⟩

/-- Whatever the prior state and tick outcome, a `start` call leaves the
service running (helper for the idempotence claim). -/
theorem start_fst_isRunning (s : HeartbeatService) (o : TickOutcome) :
    ((s.start o).1).isRunning = true := by
  cases hr : s.isRunning with
  | true => simp [HeartbeatService.start, hr]
  | false => cases o <;> simp [HeartbeatService.start, HeartbeatService.sendHeartbeat, hr]

/-- C5: one heartbeat tick is total (the `try/catch` swallows every failure)
and has the exact postcondition: on success it sets `lastHeartbeat` to the
tick's current time, increments `heartbeatCount` by one and clears
`lastError`, touching nothing else; on any failure it only sets `lastError`
to the failure description, leaving `heartbeatCount`, `lastHeartbeat` and
all other fields unchanged. -/
theorem c5_tick_postcondition (s : HeartbeatService) (now : Nat) (msg : String) :
    ((s.sendHeartbeat (.success now)).lastHeartbeat = some now ∧
     (s.sendHeartbeat (.success now)).heartbeatCount = s.heartbeatCount + 1 ∧
     (s.sendHeartbeat (.success now)).lastError = none ∧
     (s.sendHeartbeat (.success now)).isRunning = s.isRunning ∧
     (s.sendHeartbeat (.success now)).timerArmed = s.timerArmed ∧
     (s.sendHeartbeat (.success now)).intervalMs = s.intervalMs) ∧
    ((s.sendHeartbeat (.failure msg)).lastError = some msg ∧
     (s.sendHeartbeat (.failure msg)).heartbeatCount = s.heartbeatCount ∧
     (s.sendHeartbeat (.failure msg)).lastHeartbeat = s.lastHeartbeat ∧
     (s.sendHeartbeat (.failure msg)).isRunning = s.isRunning ∧
     (s.sendHeartbeat (.failure msg)).timerArmed = s.timerArmed ∧
     (s.sendHeartbeat (.failure msg)).intervalMs = s.intervalMs) := by
  simp [HeartbeatService.sendHeartbeat]

/-- C6: `start` while already running is a no-op returning the state
unchanged with zero heartbeat attempts; from a non-running state, two
successive `start` calls perform exactly one immediate attempt (1 on the
first call, 0 on the second); and `stop` followed by `start` performs one
fresh attempt whose success increments `heartbeatCount` from its previous
value instead of resetting it. -/
theorem c6_start_idempotent (s : HeartbeatService) (o o' : TickOutcome) (now : Nat) :
    (s.isRunning = true → s.start o = (s, 0)) ∧
    (s.isRunning = false →
      (s.start o).2 = 1 ∧ ((s.start o).1.start o').2 = 0) ∧
    ((s.stop.start o).2 = 1 ∧
      (s.stop.start (.success now)).1.heartbeatCount = s.heartbeatCount + 1) := by
  refine ⟨?_, ?_, ?_, ?_⟩
  · intro ht
    simp [HeartbeatService.start, ht]
  · intro hr
    refine ⟨by simp [HeartbeatService.start, hr], ?_⟩
    have h1 := start_fst_isRunning s o
    revert h1
    generalize (s.start o).1 = t
    intro h1
    simp [HeartbeatService.start, h1]
  · simp [HeartbeatService.start, HeartbeatService.stop]
  · cases o <;>
      simp [HeartbeatService.start, HeartbeatService.stop, HeartbeatService.sendHeartbeat]

theorem c6_witness :
    sampleRunning.start (.success 1) = (sampleRunning, 0) ∧
    ((sampleService.start (.success 1)).2 = 1 ∧
      ((sampleService.start (.success 1)).1.start (.failure "e")).2 = 0) ∧
    ((sampleService.stop.start (.failure "e")).2 = 1 ∧
      (sampleService.stop.start (.success 2)).1.heartbeatCount =
        sampleService.heartbeatCount + 1) :=
  ⟨(c6_start_idempotent sampleRunning (.success 1) (.failure "e") 2).1 rfl,
   (c6_start_idempotent sampleService (.success 1) (.failure "e") 2).2.1 rfl,
   (c6_start_idempotent sampleService (.failure "e") (.success 1) 2).2.2⟩

/-- C7 counterexample: constructing with the non-positive interval 0 is not
rejected — the constructor stores it and succeeds. -/
theorem c7_counterexample :
    HeartbeatService.create 0 =
      some { intervalMs := 0, timerArmed := false, isRunning := false,
             lastHeartbeat := none, heartbeatCount := 0, lastError := none } := rfl

/-- C7 amended: the constructor performs no validation of the interval; for
every interval, including non-positive ones, construction succeeds and
merely stores the given value. -/
theorem c7_constructor_accepts_any_interval (i : Int) :
    HeartbeatService.create i =
      some { intervalMs := i, timerArmed := false, isRunning := false,
             lastHeartbeat := none, heartbeatCount := 0, lastError := none } := rfl

/-- C8: a fetched challenge (with a non-empty id, i.e. one that passes the
availability check) whose `expiresAt` is nonzero and lies in the past is
reported as `expired`; the solver double is never invoked and no submission
is made. -/
theorem c8_expired_challenge_short_circuits (ch : Challenge) (now : Nat)
    (solver : String → Nat → Option String)
    (submit : String → String → SubmissionResult)
    (hid : ch.id ≠ "") (hexp : ch.expiresAt ≠ 0) (hpast : ch.expiresAt < now) :
    solveChallengeTool (some ch) now solver submit = (.expired, false, false) := by
  simp only [solveChallengeTool]
  rw [if_neg hid, if_pos (⟨by omega, by omega⟩ : 0 < ch.expiresAt ∧ ch.expiresAt ≤ now)]

theorem c8_witness :
    solveChallengeTool (some { id := "c1", difficulty := 8, data := "abc", expiresAt := 5 })
      10 (fun _ _ => some "00000005") (fun _ _ => ⟨true, "1", "ok"⟩) =
      (.expired, false, false) :=
  c8_expired_challenge_short_circuits _ 10 _ _ (by decide) (by decide) (by decide)

/-- C10: a null/missing challenge response, and equally a challenge whose
`id` is the empty string (falsy in the `!challenge.id` test), are reported
as "no challenge"; neither the solver double nor the submission double is
invoked. -/
theorem c10_empty_id_is_no_challenge (ch : Challenge) (now : Nat)
    (solver : String → Nat → Option String)
    (submit : String → String → SubmissionResult) :
    solveChallengeTool none now solver submit = (.noChallenge, false, false) ∧
    (ch.id = "" →
      solveChallengeTool (some ch) now solver submit = (.noChallenge, false, false)) := by
  constructor
  · rfl
  · intro hid
    simp [solveChallengeTool, hid]

theorem c10_witness :
    solveChallengeTool none 7 (fun _ _ => none) (fun _ _ => ⟨false, "0", "m"⟩) =
      (.noChallenge, false, false) ∧
    solveChallengeTool (some { id := "", difficulty := 1, data := "d", expiresAt := 0 })
      7 (fun _ _ => none) (fun _ _ => ⟨false, "0", "m"⟩) =
      (.noChallenge, false, false) :=
  ⟨(c10_empty_id_is_no_challenge { id := "", difficulty := 1, data := "d", expiresAt := 0 }
      7 (fun _ _ => none) (fun _ _ => ⟨false, "0", "m"⟩)).1,
   (c10_empty_id_is_no_challenge { id := "", difficulty := 1, data := "d", expiresAt := 0 }
      7 (fun _ _ => none) (fun _ _ => ⟨false, "0", "m"⟩)).2 rfl⟩

end Plumise
